import Mathlib

/-!
Shallow embedding of the geocoin-carrier game (repository `cmpm-121-demo-3`).

The embedding translates the TypeScript sources:
* `src/src/main.ts` — cells, the geocoin factory (`create`, `getCoins`,
  `removeCoin`, `addCoinToCache`), `Geocoin.collect`, `handleCoinDeposit`,
  the neighborhood spawn loop and `generatePopupContent`'s first-visit
  generation of a cache's coins;
* `src/unnamed/part_002` — `saveCacheState`, `restoreCacheState`,
  `spawnRelativeCache`, `movePlayer` (with movement history);
* `src/unnamed/part_003` — the `Board` flyweight registry
  (`getCanonicalCell`, `getCellForPoint`);
* `src/README.md` (embedded source) — `resetGameState` and
  `GameStateManager.resetPlayer`.

Modelling conventions:
* JavaScript objects with reference identity (geocoins, cells) are modelled
  by a heap: each allocation receives a fresh natural-number id, lists hold
  ids, and mutation of an object's field is an update of the heap at its id.
  JavaScript's `indexOf`/`Map` reference equality is then id equality.
* JavaScript numbers are modelled as `ℚ` where they hold continuous
  coordinates or `luck` values, and as `ℤ` where the program only ever puts
  integers in them (grid indices, loop counters).  The template-string cell
  key `"i:j"` is `toString i ++ ":" ++ toString j` in both cases, which
  agrees with JavaScript number printing on integer values.
* The deterministic generator `luck` (external module `luck.ts`) is a pure
  function; it enters the model as an explicit parameter
  `luckFn : String → ℚ`.
* DOM, leaflet map and localStorage calls have no model state; event
  dispatch / `alert` outcomes are reported in the return values of the
  operations that raise them.
-/

namespace Demo3

/-- Pointwise update of a function, used for the coin heap and for the
string-keyed dictionaries (`geocoinFactory.coins`, `cacheStateMemento`). -/
def setFn {α β : Type} [DecidableEq α] (f : α → β) (a : α) (b : β) : α → β :=
  fun x => if x = a then b else f x

@[simp]
theorem setFn_same {α β : Type} [DecidableEq α] (f : α → β) (a : α) (b : β) :
    setFn f a b a = b := by
  simp [setFn]

theorem setFn_ne {α β : Type} [DecidableEq α] (f : α → β) (a : α) (b : β)
    (x : α) (h : x ≠ a) : setFn f a b x = f x := by
  simp [setFn, h]

theorem setFn_setFn_same {α β : Type} [DecidableEq α] (f : α → β) (a : α)
    (b b' : β) : setFn (setFn f a b) a b' = setFn f a b' := by
  funext x
  by_cases h : x = a <;> simp [setFn, h]

/-- Source: `OAKES_CLASSROOM.lat` (main.ts line 8). -/
def OAKES_LAT : ℚ := 36.98949379578401

/-- Source: `OAKES_CLASSROOM.lng` (main.ts line 8). -/
def OAKES_LNG : ℚ := -122.06277128548504

/-- Source: `TILE_DEGREES` (main.ts line 10). -/
def TILE_DEGREES : ℚ := 1e-4

/-- Source: `CACHE_SPAWN_PROBABILITY` (main.ts line 12). -/
def CACHE_SPAWN_PROBABILITY : ℚ := 0.1

/-- Source: `NEIGHBORHOOD_SIZE` (main.ts line 11). -/
def NEIGHBORHOOD_SIZE : ℤ := 8

/-- Cell key `${i}:${j}` (`createCell(...).toString()`, main.ts line 92),
for the integer grid indices the program passes to `createCell`. -/
def cellKey (i j : ℤ) : String := toString i ++ ":" ++ toString j

/-- Cell key `${i}:${j}` for non-integer "cells": `resetGameState` (README
source) calls `createCell(coin.latitude, coin.longitude)`, so its keys are
serialized from continuous coordinates. -/
def numKey (x y : ℚ) : String := toString x ++ ":" ++ toString y

/-- Source: `createCell(i, j).toLatLng()` (main.ts lines 88-91). -/
def cellToLatLng (i j : ℤ) : ℚ × ℚ :=
  (OAKES_LAT + i * TILE_DEGREES, OAKES_LNG + j * TILE_DEGREES)

/-- A geocoin object (interface `Geocoin`, main.ts lines 30-36).  The
`collect` closure is modelled by the operation `collectRun` below. -/
structure Geocoin where
  latitude : ℚ
  longitude : ℚ
  serial : ℕ
  collected : Bool
deriving DecidableEq, Repr

/-- The mutable module state of the game.  `heap`/`nextId` model the
JavaScript object store for geocoins (reference = id).  `coins` is
`geocoinFactory.coins` (a string-keyed dictionary of arrays of references;
`none` = key absent).  `createdKey`/`createdCount` are ghost history fields
recording, for each coin, the cell key it was created under and, for each
key, how many coins were ever created for it; no operation reads them. -/
structure GameState where
  heap : ℕ → Option Geocoin
  nextId : ℕ
  coins : String → Option (List ℕ)
  playerCoins : List ℕ
  playerPoints : ℤ
  spawnedCaches : List String
  cacheStateMemento : String → Option (List ℕ)
  playerPosition : ℚ × ℚ
  playerMovementHistory : List (ℚ × ℚ)
  createdKey : ℕ → Option String
  createdCount : String → ℕ

/-- The state at module load: empty factory, empty inventory, zero points,
player at `OAKES_CLASSROOM`. -/
def initState : GameState where
  heap := fun _ => none
  nextId := 0
  coins := fun _ => none
  playerCoins := []
  playerPoints := 0
  spawnedCaches := []
  cacheStateMemento := fun _ => none
  playerPosition := (OAKES_LAT, OAKES_LNG)
  playerMovementHistory := []
  createdKey := fun _ => none
  createdCount := fun _ => 0

/-- Source: `geocoinFactory.getCoins` (main.ts lines 126-128):
`this.coins[cell.toString()] || []`. -/
def getCoins (s : GameState) (ck : String) : List ℕ :=
  (s.coins ck).getD []

/-- Source: `geocoinFactory.create(cell)` (main.ts lines 99-124).  The serial is
`this.coins[cellKey]?.length ?? 0`; the new coin is pushed onto the cell's
array (created first if absent) and returned (here: its fresh id). -/
def createRun (s : GameState) (i j : ℤ) : GameState × ℕ :=
  let ck := cellKey i j
  let serial := (getCoins s ck).length
  let pos := cellToLatLng i j
  let id := s.nextId
  ({ s with
      heap := setFn s.heap id
        (some { latitude := pos.1, longitude := pos.2,
                serial := serial, collected := false }),
      nextId := id + 1,
      coins := setFn s.coins ck (some (getCoins s ck ++ [id])),
      createdKey := setFn s.createdKey id (some ck),
      createdCount := setFn s.createdCount ck (s.createdCount ck + 1) },
   id)

/-- Source: `Geocoin.collect` (main.ts lines 109-116) invoked on the coin with the
given id.  If the coin is already collected nothing happens; otherwise its
`collected` flag is set, it is pushed onto `playerCoins`, `playerPoints`
is incremented, and a `game-state-changed` event is dispatched (the `Bool`
result records whether the event was dispatched).  Note the source does
NOT remove the coin from its cache's array.  The `none` heap branch is
unreachable: JavaScript can only invoke `collect` on an existing coin. -/
def collectRun (s : GameState) (id : ℕ) : GameState × Bool :=
  match s.heap id with
  | none => (s, false)
  | some c =>
    if c.collected then (s, false)
    else
      ({ s with
          heap := setFn s.heap id (some { c with collected := true }),
          playerCoins := s.playerCoins ++ [id],
          playerPoints := s.playerPoints + 1 },
       true)

/-- Source: `geocoinFactory.removeCoin` (main.ts lines 130-136).  When the cell key
is absent, `this.coins[cellKey]?.indexOf(coin)` is `undefined`, which
passes the `!== -1` guard, and the subsequent `splice` on `undefined`
throws a `TypeError`; that is the `none` result.  When the key is present,
the first occurrence of the coin is spliced out (no change if absent;
`List.erase` has exactly this behaviour on ids). -/
def removeCoinRun (s : GameState) (ck : String) (id : ℕ) :
    Option GameState :=
  match s.coins ck with
  | none => none
  | some l => some { s with coins := setFn s.coins ck (some (l.erase id)) }

/-- Source: `geocoinFactory.addCoinToCache` (main.ts lines 138-144).  `ck` is
`cell.toString()` of the cell passed by the caller. -/
def addCoinToCacheKey (s : GameState) (ck : String) (id : ℕ) : GameState :=
  { s with coins := setFn s.coins ck (some (getCoins s ck ++ [id])) }

/-- Outcome of `handleCoinDeposit`.  `success` means the deposit completed
and a `game-state-changed` event was dispatched; `emptyInventory` means
`alert("No coins to deposit!")` was shown and the state is unchanged;
`fault` means `removeCoin` threw a `TypeError` mid-handler, so the
mutations made before the throw (pop, flag, points) persist. -/
inductive DepositResult where
  | success (s : GameState)
  | emptyInventory (s : GameState)
  | fault (s : GameState)

/-- The state carried by a `DepositResult`. -/
def DepositResult.state : DepositResult → GameState
  | .success s => s
  | .emptyInventory s => s
  | .fault s => s

/-- Whether a `DepositResult` is a completed deposit. -/
def DepositResult.isSuccess : DepositResult → Bool
  | .success _ => true
  | _ => false

/-- The first three mutations of `handleCoinDeposit`'s non-empty branch
(main.ts lines 221-223): `playerCoins.pop()`, `depositedCoin.collected =
false`, `playerPoints -= 1`.  The `none` heap branch is unreachable (the
inventory holds references to existing coins). -/
def depositPop (s : GameState) (id : ℕ) : GameState :=
  { s with
      playerCoins := s.playerCoins.dropLast,
      heap := match s.heap id with
              | some c => setFn s.heap id (some { c with collected := false })
              | none => s.heap,
      playerPoints := s.playerPoints - 1 }

/-- Source: `handleCoinDeposit(cell, rect)` (main.ts lines 219-231).  If the
inventory is non-empty (equivalently `pop` yields a coin), the last
collected coin is popped, its `collected` flag cleared, the score
decremented, and the coin is removed from and then appended to the current
cell's array. -/
def handleCoinDeposit (s : GameState) (i j : ℤ) : DepositResult :=
  match s.playerCoins.getLast? with
  | none => .emptyInventory s
  | some id =>
    match removeCoinRun (depositPop s id) (cellKey i j) id with
    | none => .fault (depositPop s id)
    | some s4 => .success (addCoinToCacheKey s4 (cellKey i j) id)

/-- Source: `for (let c = 0; c < coinCount; c++) geocoinFactory.create(cell)`
(main.ts lines 174-176). -/
def createN (s : GameState) (i j : ℤ) : ℕ → GameState
  | 0 => s
  | n + 1 => createN (createRun s i j).1 i j n

/-- The first-visit generation branch of `generatePopupContent`
(main.ts lines 169-179): if the cell is not yet in `spawnedCaches`, create
`Math.floor(luck([i, j, "coinCount"].toString()) * 10) + 1` coins for it
and mark it spawned.  `luckCoin` is the value of that `luck` call. -/
def generateCache (luckCoin : ℚ) (s : GameState) (i j : ℤ) : GameState :=
  if cellKey i j ∈ s.spawnedCaches then s
  else
    let coinCount : ℤ := ⌊luckCoin * 10⌋ + 1
    let s1 := createN s i j coinCount.toNat
    { s1 with spawnedCaches := List.insert (cellKey i j) s1.spawnedCaches }

/-- Source: `[i, j].toString()` — the seed of the spawn-decision `luck` call
(main.ts line 236). -/
def spawnSeed (i j : ℤ) : String := toString i ++ "," ++ toString j

/-- Source: `[i, j, "coinCount"].toString()` — the seed of the coin-count `luck`
call (main.ts line 173). -/
def coinCountSeed (i j : ℤ) : String := spawnSeed i j ++ ",coinCount"

/-- The loop indices `-NEIGHBORHOOD_SIZE <= i < NEIGHBORHOOD_SIZE`
(main.ts lines 234-240). -/
def neighborhoodRange : List ℤ :=
  (List.range 16).map (fun n => (n : ℤ) - NEIGHBORHOOD_SIZE)

/-- The cells at which the neighborhood loop (main.ts lines 234-240) calls
`spawnCache`, i.e. places a cache rectangle on the map. -/
def spawnedRects (luckFn : String → ℚ) : List (ℤ × ℤ) :=
  neighborhoodRange.flatMap (fun i =>
    neighborhoodRange.filterMap (fun j =>
      if luckFn (spawnSeed i j) < CACHE_SPAWN_PROBABILITY then some (i, j)
      else none))

/-- Source: `saveCacheState(cell)` (part_002 lines 238-242): stores a shallow copy
`[...coins]` of the cell's current array in `cacheStateMemento` under the
cell's key.  The copy shares the coin objects (here: the ids), so later
mutation of a coin's fields is visible through the memento. -/
def saveCacheState (s : GameState) (i j : ℤ) : GameState :=
  { s with
      cacheStateMemento :=
        setFn s.cacheStateMemento (cellKey i j) (some (getCoins s (cellKey i j))) }

/-- Source: `restoreCacheState(cell)` (part_002 lines 244-251): if a memento exists
for the key, installs its coin array as the live array and marks the cell
spawned (`spawnedCaches.add`, modelled by `List.insert`). -/
def restoreCacheState (s : GameState) (i j : ℤ) : GameState :=
  match s.cacheStateMemento (cellKey i j) with
  | none => s
  | some saved =>
    { s with
        coins := setFn s.coins (cellKey i j) (some saved),
        spawnedCaches := List.insert (cellKey i j) s.spawnedCaches }

/-- The loop indices `c - NEIGHBORHOOD_SIZE <= x <= c + NEIGHBORHOOD_SIZE`
of `spawnRelativeCache` (part_002 lines 260-269), 17 values. -/
def neighborhood17 (c : ℤ) : List ℤ :=
  (List.range 17).map (fun n => c - NEIGHBORHOOD_SIZE + n)

/-- Source: `spawnRelativeCache()` (part_002 lines 253-282).  Derives the player's
grid cell with `Math.round`, clears `spawnedCaches`, then for each cell of
the 17x17 neighborhood: restores from its memento if one exists, else (if
the cell is lucky) calls `spawnCache` — which only draws the rectangle and
binds the popup, with no model-state effect — and `saveCacheState`. -/
def spawnRelativeCache (luckFn : String → ℚ) (s : GameState) : GameState :=
  let playerI : ℤ := round ((s.playerPosition.1 - OAKES_LAT) / TILE_DEGREES)
  let playerJ : ℤ := round ((s.playerPosition.2 - OAKES_LNG) / TILE_DEGREES)
  let s0 := { s with spawnedCaches := ([] : List String) }
  (neighborhood17 playerI).foldl (fun acc1 i =>
    (neighborhood17 playerJ).foldl (fun acc2 j =>
      if (acc2.cacheStateMemento (cellKey i j)).isSome then
        restoreCacheState acc2 i j
      else if luckFn (spawnSeed i j) < CACHE_SPAWN_PROBABILITY then
        saveCacheState acc2 i j
      else acc2) acc1) s0

/-- The body of `movePlayer`'s recognized-direction branch (part_002 lines
298-304): update the position, recompute the neighborhood, then
`updatePlayerMovementHistory()` pushes the (new) player position. -/
def movePlayerTo (luckFn : String → ℚ) (s : GameState) (pos : ℚ × ℚ) :
    GameState :=
  let s1 := { s with playerPosition := pos }
  let s2 := spawnRelativeCache luckFn s1
  { s2 with
      playerMovementHistory := s2.playerMovementHistory ++ [s2.playerPosition] }

/-- The inherited, string-reachable members of `Object.prototype`.  A plain
object literal such as `movement` inherits them, so indexing it with any of
these names yields the inherited member — a function, or `Object.prototype`
itself for the `__proto__` accessor — which is truthy, not `undefined`. -/
def objectPrototypeKeys : List String :=
  ["constructor", "hasOwnProperty", "isPrototypeOf", "propertyIsEnumerable",
   "toLocaleString", "toString", "valueOf", "__proto__", "__defineGetter__",
   "__defineSetter__", "__lookupGetter__", "__lookupSetter__"]

/-- Outcome of a `movePlayer` call.  `moved` is a completed compass move.
`unchanged` means `movement[direction]` was `undefined` (falsy): the guard
failed and nothing at all happened.  `typeError` means the direction named
an inherited `Object.prototype` member: the guard passed, the JavaScript
`playerPosition` variable was overwritten with that member — a function or
object, not a coordinate pair, hence outside what the
`playerPosition : ℚ × ℚ` field can denote — and the subsequent
`playerMarker.setLatLng(playerPosition)` threw, aborting the handler.  The
state carried by `typeError` holds the remaining, untouched fields
(movement history, caches, score, snapshots); its stale `playerPosition`
field no longer reflects the JavaScript variable, which holds the
inherited member named by the second argument. -/
inductive MoveResult where
  | moved (s : GameState)
  | unchanged (s : GameState)
  | typeError (s : GameState) (inheritedKey : String)

/-- Whether the move handler completed without throwing. -/
def MoveResult.ok : MoveResult → Bool
  | .typeError _ _ => false
  | _ => true

/-- Source: `movePlayer(direction)` (part_002 lines 284-305; the same
shape at main.ts lines 245-264).  The `movement` object literal has the
four compass keys as own properties (own properties shadow inherited ones,
hence they are tested first), but — being a plain object literal — it
inherits `Object.prototype`, so `movement[direction]` is also truthy for
the member names in `objectPrototypeKeys`: for those the
`if (movement[direction])` guard passes, `playerPosition` is assigned the
inherited member and `playerMarker.setLatLng` throws a `TypeError`,
aborting the handler before `map.panTo`, `spawnRelativeCache` and the
movement-history update run.  For every other non-compass string the
lookup is `undefined` and nothing happens. -/
def movePlayer (luckFn : String → ℚ) (s : GameState) (direction : String) :
    MoveResult :=
  if direction = "north" then
    .moved (movePlayerTo luckFn s
      (s.playerPosition.1 + TILE_DEGREES, s.playerPosition.2))
  else if direction = "south" then
    .moved (movePlayerTo luckFn s
      (s.playerPosition.1 - TILE_DEGREES, s.playerPosition.2))
  else if direction = "east" then
    .moved (movePlayerTo luckFn s
      (s.playerPosition.1, s.playerPosition.2 + TILE_DEGREES))
  else if direction = "west" then
    .moved (movePlayerTo luckFn s
      (s.playerPosition.1, s.playerPosition.2 - TILE_DEGREES))
  else if direction ∈ objectPrototypeKeys then
    .typeError s direction
  else
    .unchanged s

/-- Source: `resetGameState()` (README source lines 547-574), confirmed branch.
For each held coin (`getPlayerCoins()` returns a copy of the inventory):
clear its `collected` flag, then `addCoinToCache(createCell(coin.latitude,
coin.longitude), coin)` — note the cell is built from the coin's continuous
coordinates, so the key is their serialization, not the origin grid key.
Then `GameStateManager.resetPlayer()` (README lines 173-181) empties the
inventory, zeroes the points, resets the position to `OAKES_CLASSROOM` and
clears the movement history; finally `spawnedCaches` and the memento map
are cleared (the `localStorage` removals are outside the model). -/
def resetGameState (s : GameState) : GameState :=
  let s1 := s.playerCoins.foldl (fun acc id =>
    match acc.heap id with
    | none => acc
    | some c =>
      addCoinToCacheKey
        { acc with heap := setFn acc.heap id (some { c with collected := false }) }
        (numKey c.latitude c.longitude) id) s
  { s1 with
      playerCoins := [],
      playerPoints := 0,
      playerPosition := (OAKES_LAT, OAKES_LNG),
      playerMovementHistory := [],
      spawnedCaches := [],
      cacheStateMemento := fun _ => none }

/-- One observable operation of the token ledger, as invocable through the
UI: a `geocoinFactory.create` call, a first-visit cache generation
(`generatePopupContent` with an arbitrary value of the coin-count `luck`
draw), a `Geocoin.collect` click, or a `handleCoinDeposit` click with any
of its three outcomes (the outcome state of a fault keeps the mutations
made before the throw, as the browser does). -/
inductive Step : GameState → GameState → Prop
  | create (s : GameState) (i j : ℤ) : Step s (createRun s i j).1
  | popup (s : GameState) (i j : ℤ) (luckCoin : ℚ) :
      Step s (generateCache luckCoin s i j)
  | collect (s : GameState) (id : ℕ) : Step s (collectRun s id).1
  | deposit (s : GameState) (i j : ℤ) :
      Step s (handleCoinDeposit s i j).state

/-- States reachable from module load by ledger operations. -/
def Reachable (s : GameState) : Prop :=
  Relation.ReflTransGen Step initState s

/-- A cell object of the `Board` module (part_003): `ConcreteCell` with its
allocation identity (`new ConcreteCell(...)` yields a fresh reference). -/
structure CellInst where
  cid : ℕ
  i : ℤ
  j : ℤ
deriving DecidableEq, Repr

/-- Source: `ConcreteCell.toString()` (part_003 lines 83-85). -/
def CellInst.key (c : CellInst) : String := toString c.i ++ ":" ++ toString c.j

/-- The `Board` flyweight registry (part_003 lines 4-14): its `knownCells`
map in insertion order, plus the allocation counter for fresh cells. -/
structure BoardState where
  tileWidth : ℚ
  tileVisibilityRadius : ℤ
  knownCells : List (String × CellInst)
  nextCid : ℕ

/-- Source: `Board.getCanonicalCell(cell)` (part_003 lines 16-22): if the key is
unknown, store the given cell; return the stored cell for the key. -/
def getCanonicalCell (b : BoardState) (c : CellInst) :
    BoardState × CellInst :=
  match b.knownCells.lookup c.key with
  | some c0 => (b, c0)
  | none => ({ b with knownCells := b.knownCells ++ [(c.key, c)] }, c)

/-- Source: `Board.getCellForPoint(point)` (part_003 lines 24-29): floor-divide the
coordinates by the tile width, allocate a `ConcreteCell`, canonicalize. -/
def getCellForPoint (b : BoardState) (lat lng : ℚ) :
    BoardState × CellInst :=
  getCanonicalCell { b with nextCid := b.nextCid + 1 }
    { cid := b.nextCid,
      i := ⌊lat / b.tileWidth⌋,
      j := ⌊lng / b.tileWidth⌋ }

/-! ### Frame and characterization lemmas for the ledger operations -/

theorem collectRun_coins (s : GameState) (id : ℕ) :
    (collectRun s id).1.coins = s.coins := by
  unfold collectRun
  cases h : s.heap id with
  | none => rfl
  | some c => by_cases hc : c.collected <;> simp [hc]

theorem collectRun_memento (s : GameState) (id : ℕ) :
    (collectRun s id).1.cacheStateMemento = s.cacheStateMemento := by
  unfold collectRun
  cases h : s.heap id with
  | none => rfl
  | some c => by_cases hc : c.collected <;> simp [hc]

theorem collectRun_createdKey (s : GameState) (id : ℕ) :
    (collectRun s id).1.createdKey = s.createdKey := by
  unfold collectRun
  cases h : s.heap id with
  | none => rfl
  | some c => by_cases hc : c.collected <;> simp [hc]

theorem collectRun_nextId (s : GameState) (id : ℕ) :
    (collectRun s id).1.nextId = s.nextId := by
  unfold collectRun
  cases h : s.heap id with
  | none => rfl
  | some c => by_cases hc : c.collected <;> simp [hc]

theorem getCoins_collect (s : GameState) (id : ℕ) (ck : String) :
    getCoins (collectRun s id).1 ck = getCoins s ck := by
  simp [getCoins, collectRun_coins]

theorem getCoins_create (s : GameState) (i j : ℤ) (ck : String) :
    getCoins (createRun s i j).1 ck =
      if ck = cellKey i j then getCoins s (cellKey i j) ++ [s.nextId]
      else getCoins s ck := by
  by_cases h : ck = cellKey i j <;> simp [getCoins, createRun, setFn, h]

@[simp]
theorem depositPop_coins (s : GameState) (id : ℕ) :
    (depositPop s id).coins = s.coins := rfl

@[simp]
theorem depositPop_playerCoins (s : GameState) (id : ℕ) :
    (depositPop s id).playerCoins = s.playerCoins.dropLast := rfl

@[simp]
theorem depositPop_playerPoints (s : GameState) (id : ℕ) :
    (depositPop s id).playerPoints = s.playerPoints - 1 := rfl

@[simp]
theorem depositPop_nextId (s : GameState) (id : ℕ) :
    (depositPop s id).nextId = s.nextId := rfl

@[simp]
theorem depositPop_createdKey (s : GameState) (id : ℕ) :
    (depositPop s id).createdKey = s.createdKey := rfl

@[simp]
theorem depositResult_state_success (s : GameState) :
    (DepositResult.success s).state = s := rfl

@[simp]
theorem depositResult_state_empty (s : GameState) :
    (DepositResult.emptyInventory s).state = s := rfl

@[simp]
theorem depositResult_state_fault (s : GameState) :
    (DepositResult.fault s).state = s := rfl

/-- Behavior of `handleCoinDeposit` with an empty inventory: alert, no state change. -/
theorem handleCoinDeposit_empty (s : GameState) (i j : ℤ)
    (h : s.playerCoins = []) :
    handleCoinDeposit s i j = .emptyInventory s := by
  unfold handleCoinDeposit
  rw [h]
  rfl

/-- Behavior of `handleCoinDeposit` when the cell key is absent from the coin
dictionary: the `TypeError` branch. -/
theorem handleCoinDeposit_fault (s : GameState) (i j : ℤ) (id : ℕ)
    (hl : s.playerCoins.getLast? = some id)
    (hc : s.coins (cellKey i j) = none) :
    handleCoinDeposit s i j = .fault (depositPop s id) := by
  unfold handleCoinDeposit removeCoinRun
  rw [hl]
  simp only [depositPop_coins]
  rw [hc]

/-- Behavior of `handleCoinDeposit` in the completed case: the popped coin is erased
from the current cell's array (a no-op when it is not there) and appended
to it. -/
theorem handleCoinDeposit_success (s : GameState) (i j : ℤ) (id : ℕ)
    (l : List ℕ) (hl : s.playerCoins.getLast? = some id)
    (hc : s.coins (cellKey i j) = some l) :
    handleCoinDeposit s i j = .success
      { depositPop s id with
          coins := setFn s.coins (cellKey i j) (some (l.erase id ++ [id])) } := by
  unfold handleCoinDeposit removeCoinRun
  rw [hl]
  simp only [depositPop_coins]
  rw [hc]
  unfold addCoinToCacheKey getCoins
  simp [setFn_setFn_same]

/-! ### Effect of `createN` and `generateCache` on the inventory fields -/

theorem createN_playerCoins (s : GameState) (i j : ℤ) (n : ℕ) :
    (createN s i j n).playerCoins = s.playerCoins ∧
    (createN s i j n).playerPoints = s.playerPoints := by
  induction n generalizing s with
  | zero => exact ⟨rfl, rfl⟩
  | succ m ihm => simpa [createN] using ihm (createRun s i j).1

theorem generateCache_playerCoins (luckCoin : ℚ) (s : GameState) (i j : ℤ) :
    (generateCache luckCoin s i j).playerCoins = s.playerCoins ∧
    (generateCache luckCoin s i j).playerPoints = s.playerPoints := by
  unfold generateCache
  by_cases h : cellKey i j ∈ s.spawnedCaches
  · simp [h]
  · simpa [h] using createN_playerCoins s i j (⌊luckCoin * 10⌋ + 1).toNat

/-! ### The score invariant (claim C5) -/

theorem points_eq_len_step (s s' : GameState) (hstep : Step s s')
    (ih : s.playerPoints = s.playerCoins.length) :
    s'.playerPoints = s'.playerCoins.length := by
  cases hstep with
  | create i j => exact ih
  | popup i j luckCoin =>
    rcases generateCache_playerCoins luckCoin s i j with ⟨h1, h2⟩
    rw [h1, h2, ih]
  | collect id =>
    unfold collectRun
    cases h : s.heap id with
    | none => exact ih
    | some c =>
      by_cases hc : c.collected
      · simp [hc, ih]
      · simp [hc, ih]
  | deposit i j =>
    unfold handleCoinDeposit
    cases hl : s.playerCoins.getLast? with
    | none => exact ih
    | some id =>
      have hne : s.playerCoins ≠ [] := by
        intro he
        rw [he] at hl
        simp at hl
      have hlen : 0 < s.playerCoins.length := List.length_pos.mpr hne
      unfold removeCoinRun
      simp only [depositPop_coins]
      cases hc : s.coins (cellKey i j) with
      | none =>
        simp only [depositResult_state_fault, depositPop_playerCoins,
          depositPop_playerPoints, List.length_dropLast, ih]
        omega
      | some l =>
        simp only [depositResult_state_success, addCoinToCacheKey,
          depositPop_playerCoins, depositPop_playerPoints,
          List.length_dropLast, ih]
        omega

/-! ### The serial-uniqueness invariant (claim C3)

`SerialInvC heap createdKey nextId coins` says: ids at or above `nextId`
are unallocated; every coin's serial is below the current length of the
cache array of the key it was created under; and no two coins created
under the same key share a serial. -/

def SerialInvC (heap : ℕ → Option Geocoin) (ckey : ℕ → Option String)
    (nextId : ℕ) (coins : String → Option (List ℕ)) : Prop :=
  (∀ id, nextId ≤ id → heap id = none ∧ ckey id = none)
  ∧ (∀ id ck c, ckey id = some ck → heap id = some c →
      c.serial < ((coins ck).getD []).length)
  ∧ (∀ id1 id2 ck c1 c2, id1 ≠ id2 →
      ckey id1 = some ck → ckey id2 = some ck →
      heap id1 = some c1 → heap id2 = some c2 → c1.serial ≠ c2.serial)

/-- Updating a flag of an allocated coin preserves the invariant. -/
theorem serialInvC_setFlag (heap : ℕ → Option Geocoin)
    (ckey : ℕ → Option String) (nextId : ℕ)
    (coins : String → Option (List ℕ)) (id : ℕ) (c : Geocoin) (b : Bool)
    (hc : heap id = some c) (h : SerialInvC heap ckey nextId coins) :
    SerialInvC (setFn heap id (some { c with collected := b }))
      ckey nextId coins := by
  obtain ⟨h1, h2, h3⟩ := h
  have hidlt : id < nextId := by
    by_contra hge
    have := (h1 id (by omega)).1
    rw [this] at hc
    cases hc
  refine ⟨?_, ?_, ?_⟩
  · intro id' hid'
    have hne : id' ≠ id := by omega
    rw [setFn_ne _ _ _ _ hne]
    exact h1 id' hid'
  · intro id' ck c' hck hheap
    by_cases he : id' = id
    · subst he
      rw [setFn_same] at hheap
      injection hheap with hc'
      subst hc'
      exact h2 id' ck c hck hc
    · rw [setFn_ne _ _ _ _ he] at hheap
      exact h2 id' ck c' hck hheap
  · intro id1 id2 ck c1 c2 hne12 hk1 hk2 hh1 hh2
    by_cases e1 : id1 = id <;> by_cases e2 : id2 = id
    · exact absurd (e1.trans e2.symm) hne12
    · subst e1
      rw [setFn_same] at hh1
      injection hh1 with hc1
      subst hc1
      rw [setFn_ne _ _ _ _ e2] at hh2
      exact h3 id1 id2 ck c c2 hne12 hk1 hk2 hc hh2
    · subst e2
      rw [setFn_same] at hh2
      injection hh2 with hc2
      subst hc2
      rw [setFn_ne _ _ _ _ e1] at hh1
      exact h3 id1 id2 ck c1 c hne12 hk1 hk2 hh1 hc
    · rw [setFn_ne _ _ _ _ e1] at hh1
      rw [setFn_ne _ _ _ _ e2] at hh2
      exact h3 id1 id2 ck c1 c2 hne12 hk1 hk2 hh1 hh2

/-- Growing cache arrays (pointwise, in length) preserves the invariant. -/
theorem serialInvC_grow (heap : ℕ → Option Geocoin)
    (ckey : ℕ → Option String) (nextId : ℕ)
    (coins coins' : String → Option (List ℕ))
    (hmono : ∀ ck, ((coins ck).getD []).length ≤ ((coins' ck).getD []).length)
    (h : SerialInvC heap ckey nextId coins) :
    SerialInvC heap ckey nextId coins' := by
  obtain ⟨h1, h2, h3⟩ := h
  exact ⟨h1, fun id ck c hck hheap =>
    lt_of_lt_of_le (h2 id ck c hck hheap) (hmono ck), h3⟩

@[simp]
theorem createRun_nextId (s : GameState) (i j : ℤ) :
    (createRun s i j).1.nextId = s.nextId + 1 := rfl

theorem createRun_heap (s : GameState) (i j : ℤ) :
    (createRun s i j).1.heap = setFn s.heap s.nextId
      (some { latitude := (cellToLatLng i j).1,
              longitude := (cellToLatLng i j).2,
              serial := (getCoins s (cellKey i j)).length,
              collected := false }) := rfl

theorem createRun_createdKey (s : GameState) (i j : ℤ) :
    (createRun s i j).1.createdKey =
      setFn s.createdKey s.nextId (some (cellKey i j)) := rfl

theorem serialInvC_create (s : GameState) (i j : ℤ)
    (h : SerialInvC s.heap s.createdKey s.nextId s.coins) :
    SerialInvC (createRun s i j).1.heap (createRun s i j).1.createdKey
      (createRun s i j).1.nextId (createRun s i j).1.coins := by
  obtain ⟨h1, h2, h3⟩ := h
  have hcoins : ∀ ck, (((createRun s i j).1.coins ck).getD []).length =
      if ck = cellKey i j then ((s.coins (cellKey i j)).getD []).length + 1
      else ((s.coins ck).getD []).length := by
    intro ck
    by_cases hck : ck = cellKey i j <;>
      simp [createRun, setFn, getCoins, hck]
  rw [createRun_heap, createRun_createdKey, createRun_nextId]
  refine ⟨?_, ?_, ?_⟩
  · intro id hid
    have hne : id ≠ s.nextId := by omega
    rw [setFn_ne _ _ _ _ hne, setFn_ne _ _ _ _ hne]
    exact h1 id (by omega)
  · intro id ck c hck hheap
    rw [hcoins ck]
    by_cases he : id = s.nextId
    · subst he
      rw [setFn_same] at hck hheap
      injection hck with hck'
      injection hheap with hc'
      subst hck'
      subst hc'
      simp [getCoins]
    · rw [setFn_ne _ _ _ _ he] at hck hheap
      have hser := h2 id ck c hck hheap
      by_cases hck2 : ck = cellKey i j
      · subst hck2
        rw [if_pos rfl]
        omega
      · rw [if_neg hck2]
        exact hser
  · intro id1 id2 ck c1 c2 hne12 hk1 hk2 hh1 hh2
    by_cases e1 : id1 = s.nextId <;> by_cases e2 : id2 = s.nextId
    · exact absurd (e1.trans e2.symm) hne12
    · subst e1
      rw [setFn_same] at hk1 hh1
      rw [setFn_ne _ _ _ _ e2] at hk2 hh2
      injection hk1 with hk1'
      injection hh1 with hc1'
      have hser := h2 id2 ck c2 hk2 hh2
      rw [← hk1'] at hser
      rw [← hc1']
      show (getCoins s (cellKey i j)).length ≠ c2.serial
      simp only [getCoins]
      omega
    · subst e2
      rw [setFn_same] at hk2 hh2
      rw [setFn_ne _ _ _ _ e1] at hk1 hh1
      injection hk2 with hk2'
      injection hh2 with hc2'
      have hser := h2 id1 ck c1 hk1 hh1
      rw [← hk2'] at hser
      rw [← hc2']
      show c1.serial ≠ (getCoins s (cellKey i j)).length
      simp only [getCoins]
      omega
    · rw [setFn_ne _ _ _ _ e1] at hk1 hh1
      rw [setFn_ne _ _ _ _ e2] at hk2 hh2
      exact h3 id1 id2 ck c1 c2 hne12 hk1 hk2 hh1 hh2

theorem length_le_erase_succ (l : List ℕ) (id : ℕ) :
    l.length ≤ (l.erase id).length + 1 := by
  rw [List.length_erase]
  by_cases hm : id ∈ l
  · have hpos : 0 < l.length :=
      List.length_pos.mpr (by rintro rfl; cases hm)
    simp only [hm, if_true]
    omega
  · simp [hm]

theorem serialInvC_collect (s : GameState) (id : ℕ)
    (h : SerialInvC s.heap s.createdKey s.nextId s.coins) :
    SerialInvC (collectRun s id).1.heap (collectRun s id).1.createdKey
      (collectRun s id).1.nextId (collectRun s id).1.coins := by
  unfold collectRun
  cases hc : s.heap id with
  | none => exact h
  | some c =>
    by_cases hb : c.collected
    · simp only [hb, if_true]
      exact h
    · simp only [hb, Bool.false_eq_true, if_false]
      exact serialInvC_setFlag s.heap s.createdKey s.nextId s.coins id c true hc h

theorem serialInvC_depositPop (s : GameState) (id : ℕ)
    (h : SerialInvC s.heap s.createdKey s.nextId s.coins) :
    SerialInvC (depositPop s id).heap (depositPop s id).createdKey
      (depositPop s id).nextId (depositPop s id).coins := by
  unfold depositPop
  cases hc : s.heap id with
  | none => exact h
  | some c =>
    exact serialInvC_setFlag s.heap s.createdKey s.nextId s.coins id c false hc h

theorem serialInvC_deposit (s : GameState) (i j : ℤ)
    (h : SerialInvC s.heap s.createdKey s.nextId s.coins) :
    SerialInvC (handleCoinDeposit s i j).state.heap
      (handleCoinDeposit s i j).state.createdKey
      (handleCoinDeposit s i j).state.nextId
      (handleCoinDeposit s i j).state.coins := by
  cases hl : s.playerCoins.getLast? with
  | none =>
    rw [handleCoinDeposit_empty s i j (List.getLast?_eq_none_iff.mp hl)]
    exact h
  | some id =>
    cases hc : s.coins (cellKey i j) with
    | none =>
      rw [handleCoinDeposit_fault s i j id hl hc]
      exact serialInvC_depositPop s id h
    | some l =>
      rw [handleCoinDeposit_success s i j id l hl hc]
      simp only [depositResult_state_success]
      refine serialInvC_grow _ _ _ (depositPop s id).coins _ ?_
        (serialInvC_depositPop s id h)
      intro ck
      by_cases hck : ck = cellKey i j
      · subst hck
        simp only [depositPop_coins, setFn_same]
        rw [hc]
        simp only [Option.getD_some, List.length_append,
          List.length_singleton]
        exact length_le_erase_succ l id
      · simp only [depositPop_coins]
        rw [setFn_ne _ _ _ _ hck]

theorem serialInvC_createN (s : GameState) (i j : ℤ) (n : ℕ)
    (h : SerialInvC s.heap s.createdKey s.nextId s.coins) :
    SerialInvC (createN s i j n).heap (createN s i j n).createdKey
      (createN s i j n).nextId (createN s i j n).coins := by
  induction n generalizing s with
  | zero => exact h
  | succ m ihm => exact ihm (createRun s i j).1 (serialInvC_create s i j h)

theorem serialInvC_generate (luckCoin : ℚ) (s : GameState) (i j : ℤ)
    (h : SerialInvC s.heap s.createdKey s.nextId s.coins) :
    SerialInvC (generateCache luckCoin s i j).heap
      (generateCache luckCoin s i j).createdKey
      (generateCache luckCoin s i j).nextId
      (generateCache luckCoin s i j).coins := by
  unfold generateCache
  by_cases hs : cellKey i j ∈ s.spawnedCaches
  · simp only [hs, if_true]
    exact h
  · simp only [hs, if_false]
    exact serialInvC_createN s i j _ h

theorem serialInvC_reachable (s : GameState) (h : Reachable s) :
    SerialInvC s.heap s.createdKey s.nextId s.coins := by
  induction h with
  | refl =>
    refine ⟨fun id _ => ⟨rfl, rfl⟩, ?_, ?_⟩
    · intro id ck c hck
      cases hck
    · intro id1 id2 ck c1 c2 hne hk1
      cases hk1
  | tail hab hbc ih =>
    cases hbc with
    | create i j => exact serialInvC_create _ i j ih
    | popup i j luckCoin => exact serialInvC_generate luckCoin _ i j ih
    | collect id => exact serialInvC_collect _ id ih
    | deposit i j => exact serialInvC_deposit _ i j ih

theorem points_eq_len_reachable (s : GameState) (h : Reachable s) :
    s.playerPoints = s.playerCoins.length := by
  induction h with
  | refl => rfl
  | tail hab hbc ih => exact points_eq_len_step _ _ hbc ih

/-! ### Concrete traces used by the claim theorems -/

/-- One coin created for cell (0,0): id 0, serial 0, uncollected. -/
def sCreated : GameState := (createRun initState 0 0).1

/-- The same coin after the player collects it. -/
def sCollected : GameState := (collectRun sCreated 0).1

theorem reach_sCreated : Reachable sCreated :=
  Relation.ReflTransGen.tail Relation.ReflTransGen.refl
    (Step.create initState 0 0)

theorem reach_sCollected : Reachable sCollected :=
  Relation.ReflTransGen.tail reach_sCreated (Step.collect sCreated 0)

/-- A second cell (0,1) gets a coin (id 1, serial 0). -/
def t2 : GameState := (createRun sCreated 0 1).1

/-- The player collects coin 1 (from cell (0,1)). -/
def t3 : GameState := (collectRun t2 1).1

/-- The player deposits coin 1 into cell (0,0): the cache of (0,0) becomes
`[0, 1]`. -/
def t4 : GameState := (handleCoinDeposit t3 0 0).state

/-- A further coin is created for cell (0,0). -/
def t5 : GameState := (createRun t4 0 0).1

theorem reach_t4 : Reachable t4 :=
  Relation.ReflTransGen.tail
    (Relation.ReflTransGen.tail
      (Relation.ReflTransGen.tail reach_sCreated (Step.create sCreated 0 1))
      (Step.collect t2 1))
    (Step.deposit t3 0 0)

theorem reach_t5 : Reachable t5 :=
  Relation.ReflTransGen.tail reach_t4 (Step.create t4 0 0)

/-! ### Claim C1 (code bug): `collect` leaves the token in the cache array

After creating a single token for cell (0,0) and collecting it, the token
id 0 is simultaneously in the cache array of "0:0" and in the player
inventory (`Geocoin.collect` never calls `removeCoin`), so the total
number of token occurrences across caches plus inventory is 2 although
only 1 token was ever created.  The deposit path (`handleCoinDeposit`
calling `removeCoin` before `addCoinToCache`) and the popup's hiding of
collected coins both show the intended model is that collected tokens
leave the cache; the spec states the conservation invariant, which the
code violates.  -/

/-- Claim C1: in the reachable state after one create and one collect, the
single token ever created (nextId = 1) occurs both in the cache array of
its cell and in the player inventory, so the claimed conservation
invariant (each token in exactly one container, totals constant) fails on
the code.  Moreover, in the reachable state `t4` (collect the token of
cell (0,1), deposit it at cell (0,0)), token 1 sits — uncollected — in the
cache arrays of BOTH cells at once. -/
theorem claim1_collect_breaks_token_conservation :
    (Reachable sCollected
      ∧ sCollected.nextId = 1
      ∧ getCoins sCollected (cellKey 0 0) = [0]
      ∧ sCollected.playerCoins = [0]
      ∧ (getCoins sCollected (cellKey 0 0)).length
          + sCollected.playerCoins.length = 2)
    ∧ (Reachable t4
      ∧ getCoins t4 (cellKey 0 1) = [1]
      ∧ getCoins t4 (cellKey 0 0) = [0, 1]
      ∧ (t4.heap 1).map Geocoin.collected = some false
      ∧ t4.playerCoins = []) :=
  ⟨⟨reach_sCollected, by decide, by decide, by decide, by decide⟩,
    ⟨reach_t4, by decide, by decide, by decide, by decide⟩⟩

/-! ### Claim C2 (corrected): what `collect` actually does -/

/-- Counterexample to claim C2 as stated: `collect` does NOT remove the
token from its cache's token list.  Before the collect the coin is
uncollected and the cache array of "0:0" is `[0]`; the collect runs (the
state-changed notification is raised), yet the cache array afterwards is
still `[0]`. -/
theorem claim2_counterexample :
    (sCreated.heap 0).map Geocoin.collected = some false
    ∧ getCoins sCreated (cellKey 0 0) = [0]
    ∧ (collectRun sCreated 0).2 = true
    ∧ getCoins (collectRun sCreated 0).1 (cellKey 0 0) = [0] := by
  refine ⟨by decide, by decide, by decide, by decide⟩

/-- Claim C2 as amended: `collect(token)` is a no-op when the token is
already collected (idempotent, no notification); when it is uncollected,
it sets the collected flag, appends the token to the player inventory,
increments the score by 1 and raises the state-changed notification
(the `true` component) — but it leaves every cache array unchanged (the
`coins` field of the resulting state is untouched; the popup merely hides
collected tokens). -/
theorem claim2_collect_spec (s : GameState) (id : ℕ) (c : Geocoin)
    (hc : s.heap id = some c) :
    (c.collected = true → collectRun s id = (s, false))
    ∧ (c.collected = false →
        collectRun s id =
          ({ s with
              heap := setFn s.heap id (some { c with collected := true }),
              playerCoins := s.playerCoins ++ [id],
              playerPoints := s.playerPoints + 1 }, true)) := by
  unfold collectRun
  rw [hc]
  constructor
  · intro hb
    simp [hb]
  · intro hb
    simp [hb]

/-- The uncollected coin of `sCreated`, as a literal record. -/
def c0spec : Geocoin :=
  { latitude := (cellToLatLng 0 0).1, longitude := (cellToLatLng 0 0).2,
    serial := 0, collected := false }

theorem claim2_collect_spec_witness :
    sCreated.heap 0 = some c0spec
    ∧ c0spec.collected = false
    ∧ (collectRun sCreated 0).2 = true
    ∧ (collectRun sCreated 0).1.playerCoins = [0]
    ∧ (collectRun sCreated 0).1.playerPoints = 1 := by
  refine ⟨rfl, rfl, ?_, ?_, ?_⟩
  · rw [(claim2_collect_spec sCreated 0 c0spec rfl).2 rfl]
  · rw [(claim2_collect_spec sCreated 0 c0spec rfl).2 rfl]
    rfl
  · rw [(claim2_collect_spec sCreated 0 c0spec rfl).2 rfl]
    rfl

/-! ### Claim C5 (confirmed): score equals inventory length -/

/-- Claim C5: in every reachable state — for any interleaving of create,
first-visit generation, collect and deposit operations — the score
`playerPoints` equals the length of the player inventory.  The invariant
is maintained by construction of the operations (collect does `+1`/push,
deposit does `-1`/pop), as the inductive proof over the step relation
shows; it is not recomputed by scanning. -/
theorem claim5_score_eq_inventory (s : GameState) (h : Reachable s) :
    s.playerPoints = (s.playerCoins.length : ℤ) :=
  points_eq_len_reachable s h

theorem claim5_score_eq_inventory_witness :
    Reachable t4 ∧ t4.playerPoints = (t4.playerCoins.length : ℤ) :=
  ⟨reach_t4, claim5_score_eq_inventory t4 reach_t4⟩

/-! ### Claim C7 (corrected): what `deposit` actually does -/

/-- Counterexample to claim C7 as stated: in the reachable state where the
player has collected the single coin of cell (0,0) (which, because
`collect` does not remove it, is still in that cell's array), depositing
at (0,0) does not merely append the coin: the resulting array is `[0]`,
not the `[0, 0]` that appending to the pre-deposit array would give —
`handleCoinDeposit` first erases the coin's lingering occurrence. -/
theorem claim7_counterexample :
    Reachable sCollected
    ∧ (handleCoinDeposit sCollected 0 0).isSuccess = true
    ∧ getCoins (handleCoinDeposit sCollected 0 0).state (cellKey 0 0) = [0]
    ∧ getCoins sCollected (cellKey 0 0) ++ [0] = [0, 0]
    ∧ getCoins (handleCoinDeposit sCollected 0 0).state (cellKey 0 0)
        ≠ getCoins sCollected (cellKey 0 0) ++ [0] :=
  ⟨reach_sCollected, by decide, by decide, by decide, by decide⟩

/-- Claim C7 as amended: with a non-empty inventory, `deposit` removes
exactly the most-recently-collected token (LIFO pop), clears its collected
flag, decrements the score by exactly 1, and appends it to the current
cell's cache array after first erasing the token's existing occurrence
from that array when present (the token may still be there because
`collect` leaves it in place); the `success` outcome raises the
state-changed notification.  With an empty inventory it reports the
"No coins to deposit!" alert and leaves the state unchanged. -/
theorem claim7_deposit_spec (s : GameState) (i j : ℤ) :
    (s.playerCoins = [] → handleCoinDeposit s i j = .emptyInventory s)
    ∧ (∀ id c l, s.playerCoins.getLast? = some id → s.heap id = some c →
        s.coins (cellKey i j) = some l →
        handleCoinDeposit s i j = .success
          { s with
              playerCoins := s.playerCoins.dropLast,
              heap := setFn s.heap id (some { c with collected := false }),
              playerPoints := s.playerPoints - 1,
              coins := setFn s.coins (cellKey i j)
                (some (l.erase id ++ [id])) }) := by
  constructor
  · exact handleCoinDeposit_empty s i j
  · intro id c l hl hh hc
    rw [handleCoinDeposit_success s i j id l hl hc]
    congr 1
    unfold depositPop
    rw [hh]

/-- The collected coin of `sCollected`, as a literal record. -/
def c0coll : Geocoin :=
  { latitude := (cellToLatLng 0 0).1, longitude := (cellToLatLng 0 0).2,
    serial := 0, collected := true }

theorem claim7_deposit_spec_witness :
    sCollected.playerCoins.getLast? = some 0
    ∧ sCollected.heap 0 = some c0coll
    ∧ sCollected.coins (cellKey 0 0) = some [0]
    ∧ (handleCoinDeposit sCollected 0 0).isSuccess = true
    ∧ (handleCoinDeposit sCollected 0 0).state.playerCoins = []
    ∧ (handleCoinDeposit sCollected 0 0).state.playerPoints = 0 := by
  have h := (claim7_deposit_spec sCollected 0 0).2 0 c0coll [0] (by decide)
    rfl (by decide)
  refine ⟨by decide, rfl, by decide, ?_, ?_, ?_⟩
  · rw [h]
    rfl
  · rw [h]
    decide
  · rw [h]
    decide

/-! ### Claim C3 (corrected): serials come from the live array length -/

/-- Counterexample to claim C3 as stated: `create` does NOT track the
count of tokens ever created independently of the live array — it uses the
current array length.  In the reachable state `t4` (one token ever created
for "0:0", plus a foreign token deposited there, so the array is
`[0, 1]`), the next `create` at (0,0) assigns serial 2, not the
ever-created count 1. -/
theorem claim3_counterexample :
    Reachable t4
    ∧ t4.createdCount (cellKey 0 0) = 1
    ∧ getCoins t4 (cellKey 0 0) = [0, 1]
    ∧ ((createRun t4 0 0).1.heap (createRun t4 0 0).2).map Geocoin.serial
        = some 2
    ∧ ((createRun t4 0 0).1.heap (createRun t4 0 0).2).map Geocoin.serial
        ≠ some (t4.createdCount (cellKey 0 0)) :=
  ⟨reach_t4, by decide, by decide, by decide, by decide⟩

@[simp]
theorem createRun_snd (s : GameState) (i j : ℤ) :
    (createRun s i j).2 = s.nextId := rfl

/-- Claim C3 as amended: `create` assigns each new token a serial equal to
the CURRENT length of the cell's cache array (which can exceed the number
of tokens ever created for the cell when foreign tokens were deposited
there); since no operation ever shortens a cache array, these serials are
strictly increasing per key, so the claimed consequence holds: no two
tokens ever created for the same cell key share a serial, in every
reachable state. -/
theorem claim3_serial_uniqueness (s : GameState) (h : Reachable s) :
    (∀ i j : ℤ,
        ((createRun s i j).1.heap (createRun s i j).2).map Geocoin.serial
          = some (getCoins s (cellKey i j)).length)
    ∧ (∀ id1 id2 ck c1 c2, id1 ≠ id2 →
        s.createdKey id1 = some ck → s.createdKey id2 = some ck →
        s.heap id1 = some c1 → s.heap id2 = some c2 →
        c1.serial ≠ c2.serial) := by
  constructor
  · intro i j
    rw [createRun_snd, createRun_heap, setFn_same]
    rfl
  · exact (serialInvC_reachable s h).2.2

/-- The first coin of cell (0,0) in state `t5`. -/
def cT5a : Geocoin :=
  { latitude := (cellToLatLng 0 0).1, longitude := (cellToLatLng 0 0).2,
    serial := 0, collected := false }

/-- The coin created for cell (0,0) in the last step of the `t5` trace. -/
def cT5b : Geocoin :=
  { latitude := (cellToLatLng 0 0).1, longitude := (cellToLatLng 0 0).2,
    serial := 2, collected := false }

theorem claim3_serial_uniqueness_witness :
    Reachable t5
    ∧ t5.createdKey 0 = some (cellKey 0 0)
    ∧ t5.createdKey 2 = some (cellKey 0 0)
    ∧ t5.heap 0 = some cT5a
    ∧ t5.heap 2 = some cT5b
    ∧ cT5a.serial ≠ cT5b.serial :=
  ⟨reach_t5, by decide, by decide, rfl, rfl,
    (claim3_serial_uniqueness t5 reach_t5).2 0 2 (cellKey 0 0) cT5a cT5b
      (by decide) (by decide) (by decide) rfl rfl⟩

/-! ### Claim C4 (corrected): snapshot round-trip -/

/-- Save the (0,0) cache, then collect its coin, then restore. -/
def sSaved : GameState := saveCacheState sCreated 0 0

def sSavedCollected : GameState := (collectRun sSaved 0).1

def sRestored : GameState := restoreCacheState sSavedCollected 0 0

/-- Counterexample to claim C4 as stated: the snapshot is a SHALLOW copy,
not an immutable-at-creation copy of the tokens' attribute values.
Capture the cache of (0,0) (its coin uncollected), collect the coin,
restore: the restored array holds the same token in the same order, but
the token's collected flag is `true`, not the `false` it had at the moment
of capture — the memento shares the token object mutated by `collect`. -/
theorem claim4_counterexample :
    (sSaved.heap 0).map Geocoin.collected = some false
    ∧ sSaved.cacheStateMemento (cellKey 0 0) = some [0]
    ∧ getCoins sRestored (cellKey 0 0) = [0]
    ∧ (sRestored.heap 0).map Geocoin.collected = some true
    ∧ (sRestored.heap 0).map Geocoin.collected
        ≠ (sSaved.heap 0).map Geocoin.collected :=
  ⟨by decide, by decide, by decide, by decide, by decide⟩

/-- Claim C4 as amended: capturing a cache's state, mutating it via
`collect`, then restoring from the captured snapshot yields a token array
equal to the pre-mutation array — the same token ids in the same order —
but the tokens' attribute values are not frozen at capture: the snapshot
shares the token objects, so the heap (and with it any collected flag
flipped by the `collect`) is exactly the post-mutation heap. -/
theorem claim4_snapshot_roundtrip (s : GameState) (i j : ℤ) (id : ℕ) :
    getCoins (restoreCacheState (collectRun (saveCacheState s i j) id).1 i j)
        (cellKey i j)
      = getCoins s (cellKey i j)
    ∧ (restoreCacheState (collectRun (saveCacheState s i j) id).1 i j).heap
      = (collectRun (saveCacheState s i j) id).1.heap := by
  have hmem : (collectRun (saveCacheState s i j) id).1.cacheStateMemento
      (cellKey i j) = some (getCoins s (cellKey i j)) := by
    rw [collectRun_memento]
    unfold saveCacheState
    exact setFn_same _ _ _
  constructor
  · unfold restoreCacheState
    rw [hmem]
    simp [getCoins]
  · unfold restoreCacheState
    rw [hmem]

/-! ### Claim C6 (confirmed): spawn rule and initial token count -/

theorem createN_heap_lt (s : GameState) (i j : ℤ) (n : ℕ) (id : ℕ)
    (hid : id < s.nextId) :
    (createN s i j n).heap id = s.heap id := by
  induction n generalizing s with
  | zero => rfl
  | succ m ihm =>
    show (createN (createRun s i j).1 i j m).heap id = s.heap id
    rw [ihm (createRun s i j).1 (by rw [createRun_nextId]; omega)]
    rw [createRun_heap, setFn_ne _ _ _ _ (by omega)]

theorem createN_cache_and_serials (s : GameState) (i j : ℤ) (n : ℕ) :
    getCoins (createN s i j n) (cellKey i j)
      = getCoins s (cellKey i j) ++ (List.range n).map (fun m => s.nextId + m)
    ∧ (∀ m, m < n →
        ((createN s i j n).heap (s.nextId + m)).map Geocoin.serial
          = some ((getCoins s (cellKey i j)).length + m)) := by
  induction n generalizing s with
  | zero => simp [createN]
  | succ m ihm =>
    obtain ⟨ih1, ih2⟩ := ihm (createRun s i j).1
    constructor
    · show getCoins (createN (createRun s i j).1 i j m) (cellKey i j) = _
      rw [ih1, getCoins_create, if_pos rfl, List.append_assoc]
      congr 1
      rw [createRun_nextId, List.range_succ_eq_map, List.singleton_append]
      simp only [List.map_cons, List.map_map, Nat.add_zero]
      congr 1
      apply List.map_congr_left
      intro k _
      simp only [Function.comp_apply]
      omega
    · intro k hk
      show ((createN (createRun s i j).1 i j m).heap (s.nextId + k)).map
        Geocoin.serial = _
      cases k with
      | zero =>
        rw [createN_heap_lt (createRun s i j).1 i j m (s.nextId + 0)
          (by rw [createRun_nextId]; omega)]
        rw [createRun_heap]
        have : s.nextId + 0 = s.nextId := by omega
        rw [this, setFn_same]
        simp
      | succ k' =>
        have hk' : k' < m := by omega
        have := ih2 k' hk'
        rw [createRun_nextId] at this
        have harg : s.nextId + (k' + 1) = s.nextId + 1 + k' := by omega
        rw [harg, this, getCoins_create, if_pos rfl]
        simp only [List.length_append, List.length_singleton]
        congr 1
        omega

theorem generateCache_eq (luckCoin : ℚ) (s : GameState) (i j : ℤ)
    (hns : cellKey i j ∉ s.spawnedCaches) :
    generateCache luckCoin s i j =
      { createN s i j (⌊luckCoin * 10⌋ + 1).toNat with
          spawnedCaches := List.insert (cellKey i j)
            (createN s i j (⌊luckCoin * 10⌋ + 1).toNat).spawnedCaches } := by
  unfold generateCache
  rw [if_neg hns]

/-- Claim C6: (existence rule) a cell scanned by the neighborhood loop has
a cache rectangle spawned at it iff `luck([i, j]) <
CACHE_SPAWN_PROBABILITY`; (initial count) on its first popup visit, a
not-yet-generated cell with no cache array receives exactly
`floor(luck([i, j, "coinCount"]) * 10) + 1` freshly created tokens, with
serials 0 through count-1 in order. -/
theorem claim6_spawn_rule_and_initial_count (luckFn : String → ℚ)
    (s : GameState) (i j : ℤ) (n : ℕ) :
    ((i, j) ∈ spawnedRects luckFn ↔
      (i ∈ neighborhoodRange ∧ j ∈ neighborhoodRange ∧
        luckFn (spawnSeed i j) < CACHE_SPAWN_PROBABILITY))
    ∧ (cellKey i j ∉ s.spawnedCaches → s.coins (cellKey i j) = none →
        (⌊luckFn (coinCountSeed i j) * 10⌋ + 1).toNat = n →
        getCoins (generateCache (luckFn (coinCountSeed i j)) s i j)
            (cellKey i j)
          = (List.range n).map (fun m => s.nextId + m)
        ∧ (∀ m, m < n →
            ((generateCache (luckFn (coinCountSeed i j)) s i j).heap
              (s.nextId + m)).map Geocoin.serial = some m)) := by
  constructor
  · unfold spawnedRects
    simp only [List.mem_flatMap, List.mem_filterMap]
    constructor
    · rintro ⟨i', hi', j', hj', heq⟩
      by_cases hcond : luckFn (spawnSeed i' j') < CACHE_SPAWN_PROBABILITY
      · rw [if_pos hcond] at heq
        injection heq with heq'
        injection heq' with e1 e2
        subst e1
        subst e2
        exact ⟨hi', hj', hcond⟩
      · rw [if_neg hcond] at heq
        cases heq
    · rintro ⟨hi, hj, hcond⟩
      exact ⟨i, hi, j, hj, by rw [if_pos hcond]⟩
  · intro hns hempty hn
    rw [generateCache_eq _ s i j hns, hn]
    have h0 : getCoins s (cellKey i j) = [] := by simp [getCoins, hempty]
    obtain ⟨hc, hs⟩ := createN_cache_and_serials s i j n
    constructor
    · show getCoins (createN s i j n) (cellKey i j) = _
      rw [hc, h0]
      simp
    · intro m hm
      show ((createN s i j n).heap (s.nextId + m)).map Geocoin.serial = _
      rw [hs m hm, h0]
      simp

/-- The deterministic generator values of the C6 scenario: `luck((0,0))` is
0.05 and `luck((0,0,"coinCount"))` is 0.37. -/
def luckFn0 : String → ℚ := fun str =>
  if str = "0,0" then 0.05 else if str = "0,0,coinCount" then 0.37 else 0

theorem claim6_spawn_rule_and_initial_count_witness :
    ((0 : ℤ), (0 : ℤ)) ∈ spawnedRects luckFn0
    ∧ cellKey 0 0 ∉ initState.spawnedCaches
    ∧ initState.coins (cellKey 0 0) = none
    ∧ (⌊luckFn0 (coinCountSeed 0 0) * 10⌋ + 1).toNat = 4
    ∧ getCoins (generateCache (luckFn0 (coinCountSeed 0 0)) initState 0 0)
        (cellKey 0 0) = [0, 1, 2, 3]
    ∧ ((generateCache (luckFn0 (coinCountSeed 0 0)) initState 0 0).heap
        (initState.nextId + 2)).map Geocoin.serial = some 2 := by
  have hval : luckFn0 (coinCountSeed 0 0) = (0.37 : ℚ) := rfl
  have hfloor : ⌊(0.37 : ℚ) * 10⌋ = 3 := by norm_num
  have hcount : (⌊luckFn0 (coinCountSeed 0 0) * 10⌋ + 1).toNat = 4 := by
    rw [hval, hfloor]
    decide
  have hspawnval : luckFn0 (spawnSeed 0 0) = (0.05 : ℚ) := rfl
  have hmem := (claim6_spawn_rule_and_initial_count luckFn0 initState 0 0 4).1.mpr
    ⟨by decide, by decide, by rw [hspawnval]; unfold CACHE_SPAWN_PROBABILITY; norm_num⟩
  have hgen := (claim6_spawn_rule_and_initial_count luckFn0 initState 0 0 4).2
    (by decide) rfl hcount
  refine ⟨hmem, by decide, rfl, hcount, ?_, hgen.2 2 (by decide)⟩
  rw [hgen.1]
  decide

/-! ### Claim C8 (confirmed): canonical cell identity in the Board -/

theorem lookup_cons_self (k : String) (b : CellInst)
    (t : List (String × CellInst)) : ((k, b) :: t).lookup k = some b := by
  simp only [List.lookup, beq_self_eq_true]

theorem lookup_cons_ne (k a : String) (b : CellInst)
    (t : List (String × CellInst)) (hk : k ≠ a) :
    ((a, b) :: t).lookup k = t.lookup k := by
  simp only [List.lookup]
  rw [show (k == a) = false from beq_eq_false_iff_ne.mpr hk]

theorem lookup_append_single (l : List (String × CellInst)) (k : String)
    (c : CellInst) (h : l.lookup k = none) :
    (l ++ [(k, c)]).lookup k = some c := by
  induction l with
  | nil => exact lookup_cons_self k c []
  | cons p t ih =>
    obtain ⟨a, b⟩ := p
    by_cases hk : k = a
    · subst hk
      rw [lookup_cons_self] at h
      cases h
    · rw [lookup_cons_ne k a b t hk] at h
      rw [List.cons_append, lookup_cons_ne k a b _ hk]
      exact ih h

theorem lookup_none_not_mem_keys (l : List (String × CellInst)) (k : String)
    (h : l.lookup k = none) : k ∉ l.map Prod.fst := by
  induction l with
  | nil => simp
  | cons p t ih =>
    obtain ⟨a, b⟩ := p
    by_cases hk : k = a
    · subst hk
      rw [lookup_cons_self] at h
      cases h
    · rw [lookup_cons_ne k a b t hk] at h
      simp only [List.map_cons, List.mem_cons]
      rintro (he | hm)
      · exact hk he
      · exact ih h hm

theorem nodup_keys_mem_eq (l : List (String × CellInst))
    (h : (l.map Prod.fst).Nodup) (p q : String × CellInst)
    (hp : p ∈ l) (hq : q ∈ l) (hk : p.1 = q.1) : p = q := by
  induction l with
  | nil => cases hp
  | cons x t ih =>
    simp only [List.map_cons, List.nodup_cons] at h
    obtain ⟨hx, ht⟩ := h
    cases hp with
    | head =>
      cases hq with
      | head => rfl
      | tail _ hq' =>
        exact absurd (hk ▸ List.mem_map_of_mem Prod.fst hq') hx
    | tail _ hp' =>
      cases hq with
      | head =>
        exact absurd (hk ▸ List.mem_map_of_mem Prod.fst hp') hx
      | tail _ hq' => exact ih ht hp' hq'

/-- Claim C8: if two `getCellForPoint` lookups derive the same grid
coordinates (the points may differ continuously), the registry returns the
same canonical cell instance — the very same allocation, `cid` included —
and the registry never holds two entries with the same key, hence never
two canonical instances with the same (i, j). -/
theorem getCanonicalCell_found (b : BoardState) (c c0 : CellInst)
    (h : b.knownCells.lookup c.key = some c0) :
    getCanonicalCell b c = (b, c0) := by
  unfold getCanonicalCell
  rw [h]

theorem getCanonicalCell_new (b : BoardState) (c : CellInst)
    (h : b.knownCells.lookup c.key = none) :
    getCanonicalCell b c =
      ({ b with knownCells := b.knownCells ++ [(c.key, c)] }, c) := by
  unfold getCanonicalCell
  rw [h]

theorem claim8_canonical_cell_identity (b : BoardState)
    (lat1 lng1 lat2 lng2 : ℚ)
    (hnodup : (b.knownCells.map Prod.fst).Nodup)
    (hkeys : ∀ p ∈ b.knownCells, p.1 = p.2.key)
    (hi : ⌊lat1 / b.tileWidth⌋ = ⌊lat2 / b.tileWidth⌋)
    (hj : ⌊lng1 / b.tileWidth⌋ = ⌊lng2 / b.tileWidth⌋) :
    (getCellForPoint (getCellForPoint b lat1 lng1).1 lat2 lng2).2
        = (getCellForPoint b lat1 lng1).2
    ∧ ((getCellForPoint (getCellForPoint b lat1 lng1).1 lat2 lng2).1.knownCells.map
        Prod.fst).Nodup
    ∧ (∀ p q,
        p ∈ (getCellForPoint (getCellForPoint b lat1 lng1).1 lat2 lng2).1.knownCells →
        q ∈ (getCellForPoint (getCellForPoint b lat1 lng1).1 lat2 lng2).1.knownCells →
        p.2.i = q.2.i → p.2.j = q.2.j → p = q) := by
  have hkey2 : (CellInst.mk (b.nextCid + 1) ⌊lat2 / b.tileWidth⌋
        ⌊lng2 / b.tileWidth⌋).key
      = (CellInst.mk b.nextCid ⌊lat1 / b.tileWidth⌋ ⌊lng1 / b.tileWidth⌋).key := by
    unfold CellInst.key
    rw [← hi, ← hj]
  cases hlook : b.knownCells.lookup
      (CellInst.mk b.nextCid ⌊lat1 / b.tileWidth⌋ ⌊lng1 / b.tileWidth⌋).key with
  | some c0 =>
    have e1 : getCellForPoint b lat1 lng1 =
        ({ b with nextCid := b.nextCid + 1 }, c0) :=
      getCanonicalCell_found { b with nextCid := b.nextCid + 1 } _ c0 hlook
    have hlook2 : ({ b with nextCid := b.nextCid + 1 } :
        BoardState).knownCells.lookup
          (CellInst.mk (b.nextCid + 1) ⌊lat2 / b.tileWidth⌋
            ⌊lng2 / b.tileWidth⌋).key = some c0 := by
      rw [hkey2]
      exact hlook
    have e2 : getCellForPoint ({ b with nextCid := b.nextCid + 1 } :
        BoardState) lat2 lng2 =
        ({ b with nextCid := b.nextCid + 1 + 1 }, c0) :=
      getCanonicalCell_found { b with nextCid := b.nextCid + 1 + 1 } _ c0 hlook2
    rw [e1, e2]
    refine ⟨rfl, hnodup, ?_⟩
    intro p q hp hq hpi hpj
    refine nodup_keys_mem_eq b.knownCells hnodup p q hp hq ?_
    rw [hkeys p hp, hkeys q hq]
    unfold CellInst.key
    rw [hpi, hpj]
  | none =>
    have e1 : getCellForPoint b lat1 lng1 =
        ({ b with
            nextCid := b.nextCid + 1
            knownCells := b.knownCells ++
              [((CellInst.mk b.nextCid ⌊lat1 / b.tileWidth⌋
                  ⌊lng1 / b.tileWidth⌋).key,
                CellInst.mk b.nextCid ⌊lat1 / b.tileWidth⌋
                  ⌊lng1 / b.tileWidth⌋)] },
          CellInst.mk b.nextCid ⌊lat1 / b.tileWidth⌋ ⌊lng1 / b.tileWidth⌋) :=
      getCanonicalCell_new { b with nextCid := b.nextCid + 1 } _ hlook
    have hlook2 : (b.knownCells ++
        [((CellInst.mk b.nextCid ⌊lat1 / b.tileWidth⌋ ⌊lng1 / b.tileWidth⌋).key,
          CellInst.mk b.nextCid ⌊lat1 / b.tileWidth⌋ ⌊lng1 / b.tileWidth⌋)]).lookup
          (CellInst.mk (b.nextCid + 1) ⌊lat2 / b.tileWidth⌋
            ⌊lng2 / b.tileWidth⌋).key
        = some (CellInst.mk b.nextCid ⌊lat1 / b.tileWidth⌋ ⌊lng1 / b.tileWidth⌋) := by
      rw [hkey2]
      exact lookup_append_single _ _ _ hlook
    have e2 : getCellForPoint
        ({ b with
            nextCid := b.nextCid + 1
            knownCells := b.knownCells ++
              [((CellInst.mk b.nextCid ⌊lat1 / b.tileWidth⌋
                  ⌊lng1 / b.tileWidth⌋).key,
                CellInst.mk b.nextCid ⌊lat1 / b.tileWidth⌋
                  ⌊lng1 / b.tileWidth⌋)] } : BoardState) lat2 lng2 =
        ({ b with
            nextCid := b.nextCid + 1 + 1
            knownCells := b.knownCells ++
              [((CellInst.mk b.nextCid ⌊lat1 / b.tileWidth⌋
                  ⌊lng1 / b.tileWidth⌋).key,
                CellInst.mk b.nextCid ⌊lat1 / b.tileWidth⌋
                  ⌊lng1 / b.tileWidth⌋)] },
          CellInst.mk b.nextCid ⌊lat1 / b.tileWidth⌋ ⌊lng1 / b.tileWidth⌋) :=
      getCanonicalCell_found _ _ _ hlook2
    rw [e1, e2]
    have hnotmem := lookup_none_not_mem_keys _ _ hlook
    have hnodup' : ((b.knownCells ++
        [((CellInst.mk b.nextCid ⌊lat1 / b.tileWidth⌋ ⌊lng1 / b.tileWidth⌋).key,
          CellInst.mk b.nextCid ⌊lat1 / b.tileWidth⌋ ⌊lng1 / b.tileWidth⌋)]).map
          Prod.fst).Nodup := by
      rw [List.map_append]
      simp only [List.map_cons, List.map_nil]
      rw [List.nodup_append]
      exact ⟨hnodup, List.nodup_singleton _, by simpa using hnotmem⟩
    have hkeys' : ∀ p ∈ b.knownCells ++
        [((CellInst.mk b.nextCid ⌊lat1 / b.tileWidth⌋ ⌊lng1 / b.tileWidth⌋).key,
          CellInst.mk b.nextCid ⌊lat1 / b.tileWidth⌋ ⌊lng1 / b.tileWidth⌋)],
        p.1 = p.2.key := by
      intro p hp
      rcases List.mem_append.mp hp with hp' | hp'
      · exact hkeys p hp'
      · rcases List.mem_singleton.mp hp' with rfl
        rfl
    refine ⟨rfl, hnodup', ?_⟩
    intro p q hp hq hpi hpj
    refine nodup_keys_mem_eq _ hnodup' p q hp hq ?_
    rw [hkeys' p hp, hkeys' q hq]
    unfold CellInst.key
    rw [hpi, hpj]

/-- An empty registry with the game's tile width. -/
def board0 : BoardState :=
  { tileWidth := TILE_DEGREES, tileVisibilityRadius := NEIGHBORHOOD_SIZE,
    knownCells := [], nextCid := 0 }

theorem claim8_canonical_cell_identity_witness :
    ((board0.knownCells.map Prod.fst).Nodup)
    ∧ ⌊(1/20000 : ℚ) / board0.tileWidth⌋ = ⌊(7/100000 : ℚ) / board0.tileWidth⌋
    ∧ ⌊(3/100000 : ℚ) / board0.tileWidth⌋ = ⌊(9/100000 : ℚ) / board0.tileWidth⌋
    ∧ (getCellForPoint (getCellForPoint board0 (1/20000) (3/100000)).1
        (7/100000) (9/100000)).2
      = (getCellForPoint board0 (1/20000) (3/100000)).2 := by
  have h1 : ⌊(1/20000 : ℚ) / board0.tileWidth⌋ = ⌊(7/100000 : ℚ) / board0.tileWidth⌋ := by
    show ⌊(1/20000 : ℚ) / TILE_DEGREES⌋ = ⌊(7/100000 : ℚ) / TILE_DEGREES⌋
    unfold TILE_DEGREES
    norm_num
  have h2 : ⌊(3/100000 : ℚ) / board0.tileWidth⌋ = ⌊(9/100000 : ℚ) / board0.tileWidth⌋ := by
    show ⌊(3/100000 : ℚ) / TILE_DEGREES⌋ = ⌊(9/100000 : ℚ) / TILE_DEGREES⌋
    unfold TILE_DEGREES
    norm_num
  exact ⟨by simp [board0], h1, h2,
    (claim8_canonical_cell_identity board0 (1/20000) (3/100000) (7/100000)
      (9/100000) (by simp [board0]) (by simp [board0]) h1 h2).1⟩

/-! ### Claim C9 (code bug): reset routes returned tokens by coordinates

`resetGameState` builds the "origin" cell of each held coin as
`createCell(coin.latitude, coin.longitude)` — passing the continuous
coordinates where the grid indices belong — so the token is appended to a
cache keyed by the serialization of its latitude/longitude, not to its
origin cell's cache.  The origin cell's array is left untouched by reset
(the token is still in it only because `collect` never removed it). -/

/-- The value of `OAKES_LAT` as a reduced fraction (so that the kernel can
evaluate its decimal-string serialization). -/
def oakesLatLit : ℚ := ⟨3698949379578401, 100000000000000, by decide, by norm_num⟩

/-- The value of `OAKES_LNG` as a reduced fraction. -/
def oakesLngLit : ℚ := ⟨-1525784641068563, 12500000000000, by decide, by norm_num⟩

theorem oakesLat_eq : oakesLatLit = OAKES_LAT := by
  unfold oakesLatLit OAKES_LAT
  rw [Rat.mk'_eq_divInt, Rat.divInt_eq_div]
  norm_num

theorem oakesLng_eq : oakesLngLit = OAKES_LNG := by
  unfold oakesLngLit OAKES_LNG
  rw [Rat.mk'_eq_divInt, Rat.divInt_eq_div]
  norm_num

theorem cellToLatLng_zero : cellToLatLng 0 0 = (oakesLatLit, oakesLngLit) := by
  have h1 : OAKES_LAT + ((0 : ℤ) : ℚ) * TILE_DEGREES = oakesLatLit := by
    rw [oakesLat_eq]
    push_cast
    ring
  have h2 : OAKES_LNG + ((0 : ℤ) : ℚ) * TILE_DEGREES = oakesLngLit := by
    rw [oakesLng_eq]
    push_cast
    ring
  show (OAKES_LAT + ((0 : ℤ) : ℚ) * TILE_DEGREES,
    OAKES_LNG + ((0 : ℤ) : ℚ) * TILE_DEGREES) = _
  rw [h1, h2]

/-- Behavior of `resetGameState` on a state whose inventory holds exactly one coin. -/
theorem resetGameState_single (s : GameState) (id : ℕ) (c : Geocoin)
    (hpc : s.playerCoins = [id]) (hh : s.heap id = some c) :
    resetGameState s = { s with
      heap := setFn s.heap id (some { c with collected := false })
      coins := setFn s.coins (numKey c.latitude c.longitude)
        (some (getCoins s (numKey c.latitude c.longitude) ++ [id]))
      playerCoins := []
      playerPoints := 0
      playerPosition := (OAKES_LAT, OAKES_LNG)
      playerMovementHistory := []
      spawnedCaches := []
      cacheStateMemento := fun _ => none } := by
  unfold resetGameState
  rw [hpc]
  simp only [List.foldl_cons, List.foldl_nil, hh]
  rfl

/-- Claim C9: on the reachable state where the player holds the single
token of cell (0,0), the confirmed reset empties the inventory, zeroes the
score, restores the position to the origin, clears the history, all
snapshots and the spawned set, and sets the token uncollected — but it
appends the token to the cache keyed by the serialization of the token's
continuous coordinates (`"lat:lng"`), which is NOT the origin cell key
`"0:0"`; the reset leaves the `"0:0"` array itself entirely unchanged, so
no token is returned to the cache of its origin cell by the reset. -/
theorem claim9_reset_misroutes_returned_tokens :
    Reachable sCollected
    ∧ sCollected.playerCoins = [0]
    ∧ sCollected.createdKey 0 = some (cellKey 0 0)
    ∧ (resetGameState sCollected).playerCoins = []
    ∧ (resetGameState sCollected).playerPoints = 0
    ∧ (resetGameState sCollected).playerPosition = (OAKES_LAT, OAKES_LNG)
    ∧ (resetGameState sCollected).playerMovementHistory = []
    ∧ (resetGameState sCollected).cacheStateMemento = (fun _ => none)
    ∧ (resetGameState sCollected).spawnedCaches = []
    ∧ ((resetGameState sCollected).heap 0).map Geocoin.collected = some false
    ∧ getCoins (resetGameState sCollected)
        (numKey (cellToLatLng 0 0).1 (cellToLatLng 0 0).2) = [0]
    ∧ numKey (cellToLatLng 0 0).1 (cellToLatLng 0 0).2 ≠ cellKey 0 0
    ∧ (resetGameState sCollected).coins (cellKey 0 0)
        = sCollected.coins (cellKey 0 0) := by
  have hrs := resetGameState_single sCollected 0 c0coll (by decide) rfl
  have hKne : numKey c0coll.latitude c0coll.longitude ≠ cellKey 0 0 := by
    show numKey (cellToLatLng 0 0).1 (cellToLatLng 0 0).2 ≠ cellKey 0 0
    rw [cellToLatLng_zero]
    decide
  refine ⟨reach_sCollected, by decide, by decide, ?_, ?_, ?_, ?_, ?_, ?_,
    ?_, ?_, ?_, ?_⟩
  · rw [hrs]
  · rw [hrs]
  · rw [hrs]
  · rw [hrs]
  · rw [hrs]
  · rw [hrs]
  · rw [hrs]
    show (setFn sCollected.heap 0
      (some { c0coll with collected := false }) 0).map Geocoin.collected = _
    rw [setFn_same]
    rfl
  · rw [hrs]
    show (setFn sCollected.coins (numKey c0coll.latitude c0coll.longitude)
        (some (getCoins sCollected (numKey c0coll.latitude c0coll.longitude)
          ++ [0]))
        (numKey c0coll.latitude c0coll.longitude)).getD [] = [0]
    rw [setFn_same]
    have hnone : sCollected.coins (numKey c0coll.latitude c0coll.longitude)
        = none := by
      show (collectRun sCreated 0).1.coins
        (numKey c0coll.latitude c0coll.longitude) = none
      rw [collectRun_coins sCreated 0]
      show setFn initState.coins (cellKey 0 0)
        (some (getCoins initState (cellKey 0 0) ++ [0]))
        (numKey c0coll.latitude c0coll.longitude) = none
      rw [setFn_ne _ _ _ _ hKne]
      rfl
    simp [getCoins, hnone]
  · show numKey c0coll.latitude c0coll.longitude ≠ cellKey 0 0
    exact hKne
  · rw [hrs]
    show setFn sCollected.coins (numKey c0coll.latitude c0coll.longitude)
      (some (getCoins sCollected (numKey c0coll.latitude c0coll.longitude)
        ++ [0])) (cellKey 0 0) = sCollected.coins (cellKey 0 0)
    rw [setFn_ne _ _ _ _ (Ne.symm hKne)]

/-! ### Claim C10 (corrected): unrecognized directions and the prototype
chain -/

/-- Counterexample to claim C10 as stated: `movePlayer` is NOT a total
no-op on every direction string outside {north, south, east, west}.  The
direction string `"toString"` is not a compass direction, yet
`movement["toString"]` is the inherited `Object.prototype.toString`
function — truthy — so the guard passes: the position variable is
overwritten with that function and `playerMarker.setLatLng` throws a
`TypeError`; the call fails with the position clobbered instead of
leaving the state untouched. -/
theorem claim10_counterexample :
    ("toString" : String) ∉ (["north", "south", "east", "west"] : List String)
    ∧ ("toString" : String) ∈ objectPrototypeKeys
    ∧ movePlayer (fun _ => 0) initState ("toString")
        = MoveResult.typeError initState ("toString")
    ∧ (movePlayer (fun _ => 0) initState ("toString")).ok = false
    ∧ (movePlayer (fun _ => 0) initState ("toString"))
        ≠ MoveResult.unchanged initState :=
  ⟨by decide, by decide, rfl, by decide,
    fun h => by rw [show movePlayer (fun _ => 0) initState ("toString")
        = MoveResult.typeError initState ("toString") from rfl] at h; cases h⟩

/-- Claim C10 as amended: for every direction string that is neither one
of {north, south, east, west} nor the name of an inherited
`Object.prototype` member, `movePlayer` does nothing — position and
movement history unchanged.  For a direction string naming an inherited
`Object.prototype` member, the object-literal lookup is truthy, so the
guard passes: the position variable is overwritten with the inherited
member (a non-coordinate value) and the marker update then throws a
`TypeError`, aborting the handler before the neighborhood recomputation
and before the movement history is updated — the history stays unchanged,
but the position is clobbered and the call fails rather than no-opping. -/
theorem claim10_move_unknown_direction (luckFn : String → ℚ)
    (s : GameState) (direction : String)
    (h1 : direction ≠ "north") (h2 : direction ≠ "south")
    (h3 : direction ≠ "east") (h4 : direction ≠ "west") :
    (direction ∉ objectPrototypeKeys →
      movePlayer luckFn s direction = MoveResult.unchanged s)
    ∧ (direction ∈ objectPrototypeKeys →
      movePlayer luckFn s direction = MoveResult.typeError s direction) := by
  unfold movePlayer
  rw [if_neg h1, if_neg h2, if_neg h3, if_neg h4]
  constructor
  · intro hmem
    rw [if_neg hmem]
  · intro hmem
    rw [if_pos hmem]

theorem claim10_move_unknown_direction_witness :
    ("northeast" : String) ≠ "north"
    ∧ ("northeast" : String) ≠ "south"
    ∧ ("northeast" : String) ≠ "east"
    ∧ ("northeast" : String) ≠ "west"
    ∧ ("northeast" : String) ∉ objectPrototypeKeys
    ∧ movePlayer (fun _ => 0) initState ("northeast")
        = MoveResult.unchanged initState
    ∧ ("valueOf" : String) ∈ objectPrototypeKeys
    ∧ movePlayer (fun _ => 0) initState ("valueOf")
        = MoveResult.typeError initState ("valueOf") :=
  ⟨by decide, by decide, by decide, by decide, by decide,
    (claim10_move_unknown_direction (fun _ => 0) initState ("northeast")
      (by decide) (by decide) (by decide) (by decide)).1 (by decide),
    by decide,
    (claim10_move_unknown_direction (fun _ => 0) initState ("valueOf")
      (by decide) (by decide) (by decide) (by decide)).2 (by decide)⟩

end Demo3
